import Mathlib

/-!
# guardian: the entry point `cmd/guardian/main.go`

A shallow embedding of `main`: the eleven kingpin flag declarations, the
resolution of each flag from command line, environment and default, and the
wiring that follows `kingpin.Parse()` (log level, listener, reporter choice,
limit and pool options, store, rate limiter, server, exit status).

External libraries (strconv, time, logrus, net, statsd) are parameters of the
model: `Lib` holds the pure parsers, `World` the effectful calls.  `main` is
modelled as a function to an `Outcome`: the trace of the calls it makes, in
program order, and the exit status of the process.
-/

namespace Guardian

/-! ## Data model -/

/-- Levels of `logrus`, most severe first (`PanicLevel` = 0 ... `TraceLevel` = 6). -/
inductive Level
  | panic | fatal | error | warn | info | debug | trace
  deriving DecidableEq, Repr

/-- Numeric value of a `logrus.Level`. -/
def Level.rank : Level → Nat
  | .panic => 0
  | .fatal => 1
  | .error => 2
  | .warn => 3
  | .info => 4
  | .debug => 5
  | .trace => 6

/-- `time.Duration` is a count of nanoseconds. -/
abbrev Duration := Int

/-- `time.Millisecond`. -/
def Millisecond : Duration := 1000000

/-- `time.Second`. -/
def Second : Duration := 1000000000

/-- DefaultRedisConnectTimeout is the default timeout used when connecting to redis
(main.go:15). -/
def DefaultRedisConnectTimeout : Duration := 100 * Millisecond

/-- DefaultRedisReadTimeout is the default timeout used when reading a reply from redis
(main.go:18). -/
def DefaultRedisReadTimeout : Duration := 100 * Millisecond

/-- DefaultRedisWriteTimeout is the default timeout used when writing to redis
(main.go:21). -/
def DefaultRedisWriteTimeout : Duration := 100 * Millisecond

/-- Modelled from the spec: the declaration of `guardian.Limit` is not part of the
sources; the fields are those of the spec's `Limit` and of the literal at main.go:68
(`Count` is a `uint64`, `Duration` a `time.Duration`). -/
structure Limit where
  Count : Nat
  Duration : Duration
  Enabled : Bool
  deriving DecidableEq, Repr

/-- Modelled from the spec: the declaration of `guardian.RedisPoolOpts` is not part of
the sources; the fields are those of the literal at main.go:69 (the spec's
`PoolOptions` without the timeouts, which main passes separately). -/
structure RedisPoolOpts where
  Addr : String
  MaxActiveConns : Int
  MaxIdleConns : Int
  Wait : Bool
  deriving DecidableEq, Repr

/-- The part of `statsd.Client` main touches: the address it was created for and the
`Namespace` field assigned at main.go:64. -/
structure StatsdClient where
  addr : String
  Namespace : String
  deriving DecidableEq, Repr

/-- Modelled from the spec: `guardian.MetricReporter` and its two implementations are
declared outside the sources; the constructors are the two values built at
main.go:55 and main.go:65. -/
inductive MetricReporter
  | NullReporter
  | DataDogReporter (Client : StatsdClient) (IngressClass : String)
  deriving DecidableEq, Repr

/-- A listening socket returned by `net.Listen`. -/
structure Listener where
  network : String
  addr : String
  deriving DecidableEq, Repr

/-! ## Flags (main.go:25-36) -/

/-- The value type a kingpin flag is bound to (`.String()`, `.Int()`, `.Bool()`,
`.Uint64()`, `.Duration()`). -/
inductive ValueKind
  | string | int | bool | uint64 | duration
  deriving DecidableEq, Repr

/-- One `kingpin.Flag(name, help).Short(c).Default(d).OverrideDefaultFromEnvar(e)`
declaration. `defaultValue` is `none` when `.Default` is not called. -/
structure FlagClause where
  name : String
  short : Char
  defaultValue : Option String
  envar : String
  kind : ValueKind
  deriving DecidableEq, Repr

/-- Flag declaration at main.go:25. -/
def logLevelFlag : FlagClause :=
  ⟨"log-level", 'l', some "warn", "LOG_LEVEL", .string⟩

/-- Flag declaration at main.go:26. -/
def addressFlag : FlagClause :=
  ⟨"address", 'a', some "0.0.0.0:3000", "ADDRESS", .string⟩

/-- Flag declaration at main.go:27. -/
def redisAddressFlag : FlagClause :=
  ⟨"redis-address", 'r', none, "REDIS_ADDRESS", .string⟩

/-- Flag declaration at main.go:28. -/
def redisMaxIdleFlag : FlagClause :=
  ⟨"redis-max-idle-conns", 'i', some "20", "REDIS_MAX_IDLE_CONNS", .int⟩

/-- Flag declaration at main.go:29. -/
def redisMaxActiveFlag : FlagClause :=
  ⟨"redis-max-active-conns", 'm', some "20", "REDIS_MAX_ACTIVE_CONNS", .int⟩

/-- Flag declaration at main.go:30. -/
def dogstatsdAddressFlag : FlagClause :=
  ⟨"dogstatsd-address", 'd', none, "DOGSTATSD_ADDRESS", .string⟩

/-- Flag declaration at main.go:31. -/
def reportOnlyFlag : FlagClause :=
  ⟨"report-only", 'o', some "false", "REPORT_ONLY", .bool⟩

/-- Flag declaration at main.go:32. -/
def reqLimitFlag : FlagClause :=
  ⟨"limit", 'q', some "10", "LIMIT", .uint64⟩

/-- Flag declaration at main.go:33. -/
def limitDurationFlag : FlagClause :=
  ⟨"limit-duration", 'y', some "1s", "LIMIT_DURATION", .duration⟩

/-- Flag declaration at main.go:34. -/
def limitEnabledFlag : FlagClause :=
  ⟨"limit-enabled", 'e', some "true", "LIMIT_ENBALED", .bool⟩

/-- Flag declaration at main.go:35. -/
def ingressClassFlag : FlagClause :=
  ⟨"ingress-class", 'c', some "default", "INGRESS_CLASS", .string⟩

/-- The eleven flags in declaration order. -/
def flags : List FlagClause :=
  [logLevelFlag, addressFlag, redisAddressFlag, redisMaxIdleFlag, redisMaxActiveFlag,
   dogstatsdAddressFlag, reportOnlyFlag, reqLimitFlag, limitDurationFlag,
   limitEnabledFlag, ingressClassFlag]

/-- The environment variable registered for the flag with long name `name`. -/
def envarOf (name : String) : Option String :=
  (flags.find? (fun f => f.name == name)).map (fun f => f.envar)

/-- The flag/variable pairs of the specification's configuration surface. -/
def specPairs : List (String × String) :=
  [("log-level", "LOG_LEVEL"), ("address", "ADDRESS"), ("redis-address", "REDIS_ADDRESS"),
   ("redis-max-idle-conns", "REDIS_MAX_IDLE_CONNS"),
   ("redis-max-active-conns", "REDIS_MAX_ACTIVE_CONNS"),
   ("dogstatsd-address", "DOGSTATSD_ADDRESS"), ("report-only", "REPORT_ONLY"),
   ("limit", "LIMIT"), ("limit-duration", "LIMIT_DURATION"),
   ("limit-enabled", "LIMIT_ENABLED"), ("ingress-class", "INGRESS_CLASS")]

/-- The command line after kingpin's tokenizer: the raw text given for a long flag
name, if the flag was passed. -/
abbrev Args := String → Option String

/-- The process environment as `os.Getenv` sees it: an unset variable reads as the
empty string. -/
abbrev Environ := String → String

/-- The raw text kingpin hands to the flag's value: the command-line text when the
flag was passed; otherwise the registered environment variable when it is non-empty;
otherwise the declared default, if any. -/
def FlagClause.raw (f : FlagClause) (args : Args) (env : Environ) : Option String :=
  match args f.name with
  | some v => some v
  | none => if env f.envar != "" then some (env f.envar) else f.defaultValue

/-- The pure library functions main relies on, taken as parameters:
`strconv.ParseBool`, kingpin's int value parser, `strconv.ParseUint(s, 0, 64)`,
`time.ParseDuration` and `logrus.ParseLevel`. `none` stands for a returned error. -/
structure Lib where
  parseBool : String → Option Bool
  parseInt : String → Option Int
  parseUint64 : String → Option Nat
  parseDuration : String → Option Duration
  parseLevel : String → Option Level

/-- The values behind the eleven flag pointers once `kingpin.Parse()` has returned. -/
structure Config where
  logLevel : String
  address : String
  redisAddress : String
  redisMaxIdle : Int
  redisMaxActive : Int
  dogstatsdAddress : String
  reportOnly : Bool
  reqLimit : Nat
  limitDuration : Duration
  limitEnabled : Bool
  ingressClass : String
  deriving DecidableEq, Repr

/-- Value of a `.String()` flag: the raw text, or the zero value `""`. -/
def stringValue (f : FlagClause) (args : Args) (env : Environ) : String :=
  (f.raw args env).getD ""

/-- Value of a typed flag: the raw text run through the value parser, or the zero
value when there is no text at all. A parser error makes `Parse` fail. -/
def typedValue {α : Type} (parse : String → Option α) (zero : α)
    (f : FlagClause) (args : Args) (env : Environ) : Option α :=
  match f.raw args env with
  | none => some zero
  | some s => parse s

/-- The effect of `kingpin.Parse()` at main.go:36 on the eleven flags; `none` when a
value does not parse (kingpin then prints usage and terminates the process). -/
def parseFlags (L : Lib) (args : Args) (env : Environ) : Option Config :=
  match typedValue L.parseInt 0 redisMaxIdleFlag args env,
        typedValue L.parseInt 0 redisMaxActiveFlag args env,
        typedValue L.parseBool false reportOnlyFlag args env,
        typedValue L.parseUint64 0 reqLimitFlag args env,
        typedValue L.parseDuration 0 limitDurationFlag args env,
        typedValue L.parseBool false limitEnabledFlag args env with
  | some idle, some active, some ro, some lim, some dur, some en =>
    some { logLevel := stringValue logLevelFlag args env
           address := stringValue addressFlag args env
           redisAddress := stringValue redisAddressFlag args env
           redisMaxIdle := idle
           redisMaxActive := active
           dogstatsdAddress := stringValue dogstatsdAddressFlag args env
           reportOnly := ro
           reqLimit := lim
           limitDuration := dur
           limitEnabled := en
           ingressClass := stringValue ingressClassFlag args env }
  | _, _, _, _, _, _ => none

/-! ## The body of main after parsing (main.go:38-83) -/

/-- An argument of a formatted log call. -/
inductive LogArg
  | str (s : String)
  | level (l : Level)
  | limit (l : Limit)
  deriving DecidableEq, Repr

/-- The calls main makes, recorded in program order. `log` is a call of
`Warnf`/`Infof`/`Errorf`/`Error` on the logger, with the error attached through
`WithError` (if any), the format string and its arguments. -/
inductive Event
  | log (lvl : Level) (err : Option String) (format : String) (args : List LogArg)
  | setLevel (lvl : Level)
  | listen (network : String) (addr : String)
  | statsdNew (addr : String)
  | assignReporter (r : MetricReporter)
  | newRedisLimitStore (limit : Limit) (opts : RedisPoolOpts)
      (connectTimeout readTimeout writeTimeout : Duration)
  | newIPRateLimiter
  | newServer (reportOnly : Bool) (reporter : MetricReporter)
  | serve (l : Listener)
  | exit (code : Nat)
  deriving DecidableEq, Repr

/-- How a call of `server.Serve` ends: it serves for ever, or it returns, with an
error or with nil (`none`). -/
inductive ServeResult
  | blocks
  | returns (err : Option String)
  deriving DecidableEq, Repr

/-- The effectful calls main makes, taken as parameters: `net.Listen`, `statsd.New`
and `server.Serve`. `NewRedisLimitStore` and `NewIPRateLimiter` return a single value
and no error (main.go:73-74), so they give main nothing to branch on. -/
structure World where
  listen : String → String → Except String Listener
  statsdNew : String → Except String StatsdClient
  serve : Listener → ServeResult

/-- What a run of main amounts to: the calls made and the exit status of the process:
`some 0` when main returns, `some 1` after `os.Exit(1)`, `none` when the process never
exits because `Serve` does not return. -/
structure Outcome where
  trace : List Event
  exitCode : Option Nat
  deriving DecidableEq, Repr

/-- The level main sets (main.go:39-42): the parsed level, `ErrorLevel` when
`logrus.ParseLevel` returns an error. -/
def chosenLevel (L : Lib) (C : Config) : Level :=
  match L.parseLevel C.logLevel with
  | some level => level
  | none => Level.error

/-- The limit built at main.go:68. -/
def mkLimit (C : Config) : Limit :=
  { Count := C.reqLimit, Duration := C.limitDuration, Enabled := C.limitEnabled }

/-- The pool options built at main.go:69. -/
def mkRedisOpts (C : Config) : RedisPoolOpts :=
  { Addr := C.redisAddress, MaxActiveConns := C.redisMaxActive,
    MaxIdleConns := C.redisMaxIdle, Wait := true }

/-- Lines 38-47 of main: parse the level, announce it, set it, listen. -/
def startup (L : Lib) (C : Config) : List Event :=
  [Event.log Level.warn none "setting log level to %v" [LogArg.level (chosenLevel L C)],
   Event.setLevel (chosenLevel L C),
   Event.listen "tcp" C.address]

/-- Lines 68-78 of main: build the limit and the pool options, construct the store,
the rate limiter and the server, and call `Serve` on the listener. -/
def wiring (C : Config) (l : Listener) (reporter : MetricReporter) : List Event :=
  [Event.log Level.info none "setting ip rate limiter to use redis store at %v with %v"
     [LogArg.str C.redisAddress, LogArg.limit (mkLimit C)],
   Event.newRedisLimitStore (mkLimit C) (mkRedisOpts C)
     DefaultRedisConnectTimeout DefaultRedisReadTimeout DefaultRedisWriteTimeout,
   Event.newIPRateLimiter,
   Event.log Level.info none "starting server on %v" [LogArg.str C.address],
   Event.newServer C.reportOnly reporter,
   Event.serve l]

/-- Lines 68-83 of main, once the listener `l` and the reporter exist: the wiring,
then the error report and `os.Exit(1)` when `Serve` returns an error. -/
def serveWith (W : World) (C : Config) (l : Listener) (reporter : MetricReporter) :
    Outcome :=
  match W.serve l with
  | .returns (some err) =>
    ⟨wiring C l reporter ++
      [Event.log Level.error (some err) "error running server" [], Event.exit 1], some 1⟩
  | .returns none => ⟨wiring C l reporter, some 0⟩
  | .blocks => ⟨wiring C l reporter, none⟩

/-- The body of main from main.go:38 on, for the parsed configuration `C`. -/
def run (L : Lib) (W : World) (C : Config) : Outcome :=
  match W.listen "tcp" C.address with
  | .error err =>
    ⟨startup L C ++
      [Event.log Level.error (some err) "could not listen on %s" [LogArg.str C.address],
       Event.exit 1], some 1⟩
  | .ok l =>
    if C.dogstatsdAddress.utf8ByteSize == 0 then
      let o := serveWith W C l MetricReporter.NullReporter
      ⟨startup L C ++ Event.assignReporter MetricReporter.NullReporter :: o.trace, o.exitCode⟩
    else
      match W.statsdNew C.dogstatsdAddress with
      | .error err =>
        ⟨startup L C ++
          [Event.statsdNew C.dogstatsdAddress,
           Event.log Level.error (some err)
             "could create dogstatsd client with address %s" [LogArg.str C.dogstatsdAddress],
           Event.exit 1], some 1⟩
      | .ok ddStatsd =>
        let reporter := MetricReporter.DataDogReporter
          { ddStatsd with Namespace := "guardian." } C.ingressClass
        let o := serveWith W C l reporter
        ⟨startup L C ++ Event.statsdNew C.dogstatsdAddress ::
          Event.assignReporter reporter :: o.trace, o.exitCode⟩

/-- The whole of main: `kingpin.Parse()` terminates the process with status 1 when
a flag value is rejected; otherwise the body runs on the parsed values. -/
def main (L : Lib) (W : World) (args : Args) (env : Environ) : Outcome :=
  match parseFlags L args env with
  | none => ⟨[Event.exit 1], some 1⟩
  | some C => run L W C

/-! ## Reading a trace -/

/-- The reporters handed to `NewServer`, in order. -/
def reportersHanded : List Event → List MetricReporter
  | [] => []
  | Event.newServer _ r :: t => r :: reportersHanded t
  | _ :: t => reportersHanded t

/-- Whether the event is an assignment to the variable `reporter`. -/
def Event.isAssign : Event → Bool
  | Event.assignReporter _ => true
  | _ => false

/-- Whether the event is a call of `Serve`. -/
def Event.isServe : Event → Bool
  | Event.serve _ => true
  | _ => false

/-- Whether the event is an error-level log call carrying the error `err`. -/
def Event.logsError (err : String) : Event → Bool
  | Event.log Level.error (some e) _ _ => e == err
  | _ => false

/-- The log calls the logger lets through when it starts at level `cur`: logrus
emits an entry when the logger's level is at least the entry's, and `SetLevel`
changes the logger's level for the calls that follow. -/
def emitted : Level → List Event → List Event
  | _, [] => []
  | _, Event.setLevel l :: t => emitted l t
  | cur, Event.log lvl err fmt as :: t =>
    if lvl.rank ≤ cur.rank then Event.log lvl err fmt as :: emitted cur t
    else emitted cur t
  | cur, _ :: t => emitted cur t

/-- The level of `logrus.StandardLogger()` before main changes it. -/
def standardLoggerLevel : Level := Level.info

/-! ## Reference instances for evaluation -/

/-- Decimal value of a list of ASCII digits; `none` on any other character or on
the empty list. -/
def decimal? (cs : List Char) : Option Nat :=
  if cs.isEmpty then none
  else cs.foldl (fun acc c =>
    match acc with
    | none => none
    | some n => if c.isDigit then some (n * 10 + (c.toNat - 48)) else none) (some 0)

/-- `strconv.ParseBool`: the twelve accepted spellings. -/
def parseBool (s : String) : Option Bool :=
  if s ∈ ["1", "t", "T", "TRUE", "true", "True"] then some true
  else if s ∈ ["0", "f", "F", "FALSE", "false", "False"] then some false
  else none

/-- Reference int parser: plain decimal literals of at most fifteen digits with an
optional minus sign, on which kingpin's int value agrees. -/
def parseIntRef (s : String) : Option Int :=
  match s.data with
  | '-' :: cs => if cs.length ≤ 15 then (decimal? cs).map (fun n => - (n : Int)) else none
  | cs => if cs.length ≤ 15 then (decimal? cs).map (fun n => (n : Int)) else none

/-- Reference unsigned parser: decimal literals without a leading zero (which would
select another base) that fit in 64 bits. -/
def parseUint64Ref (s : String) : Option Nat :=
  match s.data with
  | ['0'] => some 0
  | '0' :: _ => none
  | cs => (decimal? cs).bind (fun n => if n < 2 ^ 64 then some n else none)

/-- Nanoseconds of a `time.ParseDuration` unit. -/
def unitNanos (u : List Char) : Option Nat :=
  if u = ['n', 's'] then some 1
  else if u = ['u', 's'] then some 1000
  else if u = ['m', 's'] then some 1000000
  else if u = ['s'] then some 1000000000
  else if u = ['m'] then some 60000000000
  else if u = ['h'] then some 3600000000000
  else none

/-- Reference duration parser: a single `<digits><unit>` term, or `0`, within the
int64 range. -/
def parseDurationRef (s : String) : Option Duration :=
  if s = "0" then some 0
  else
    let ds := s.data.takeWhile Char.isDigit
    let u := s.data.dropWhile Char.isDigit
    match decimal? ds, unitNanos u with
    | some n, some k => if n * k < 2 ^ 63 then some ((n * k : Nat) : Int) else none
    | _, _ => none

/-- `logrus.ParseLevel` on lower-case level names. -/
def parseLevelRef (s : String) : Option Level :=
  if s = "panic" then some Level.panic
  else if s = "fatal" then some Level.fatal
  else if s = "error" then some Level.error
  else if s = "warn" ∨ s = "warning" then some Level.warn
  else if s = "info" then some Level.info
  else if s = "debug" then some Level.debug
  else none

/-- The reference library instance used to evaluate the model on concrete inputs. -/
def refLib : Lib :=
  { parseBool := parseBool, parseInt := parseIntRef, parseUint64 := parseUint64Ref,
    parseDuration := parseDurationRef, parseLevel := parseLevelRef }

/-- A world in which every call succeeds and `Serve` returns nil. -/
def calmWorld : World :=
  { listen := fun network addr => .ok ⟨network, addr⟩
    statsdNew := fun addr => .ok ⟨addr, ""⟩
    serve := fun _ => .returns none }

/-- No flag on the command line. -/
def noArgs : Args := fun _ => none

/-- No variable set in the environment. -/
def emptyEnv : Environ := fun _ => ""

/-- The configuration of the declared defaults. -/
def defaultConfig : Config :=
  { logLevel := "warn", address := "0.0.0.0:3000", redisAddress := "",
    redisMaxIdle := 20, redisMaxActive := 20, dogstatsdAddress := "",
    reportOnly := false, reqLimit := 10, limitDuration := Second,
    limitEnabled := true, ingressClass := "default" }

/-- The environment that sets only `LIMIT_ENABLED=false`. -/
def limitEnabledFalseEnv : Environ :=
  fun v => if v = "LIMIT_ENABLED" then "false" else ""

/-- A world in which `net.Listen` fails. -/
def noListenWorld : World :=
  { listen := fun _ _ => .error "address already in use"
    statsdNew := fun addr => .ok ⟨addr, ""⟩
    serve := fun _ => .returns none }

/-- The default configuration with the log level "fatal". -/
def fatalConfig : Config :=
  { defaultConfig with logLevel := "fatal" }

/-! ## The limiter main wires in

`guardian.NewRedisLimitStore`, `guardian.NewIPRateLimiter` and the `Limit` method
main passes to the server live in package `guardian`, outside the sources. -/

/-- Modelled from the spec: the counter record of the shared store,
`key → (count, expires_at)` (section 3). -/
structure Counter where
  count : Nat
  expiresAt : Int
  deriving DecidableEq, Repr

/-- Modelled from the spec: the shared store as a map from keys to counter records. -/
abbrev Store := String → Option Counter

/-- Modelled from the spec: the shared-store key schema
`key = scope ++ separator ++ clientIdentity` (section 6); the separator is not
fixed by the spec and is a parameter. -/
def rateLimitKey (sep scope client : String) : String :=
  scope ++ sep ++ client

/-- Modelled from the spec: `IncrementAndCheck` of the Limit Store (section 4.2),
which is not part of the sources. Atomically increment the counter for `key`; if
this increment created the counter (no record, or the record's TTL has lapsed at
`now`), set its expiry to `limit.Duration`; return the resulting count. -/
def IncrementAndCheck (store : Store) (now : Int) (key : String) (limit : Limit) :
    Nat × Store :=
  match store key with
  | some c =>
    if now < c.expiresAt then
      (c.count + 1, Function.update store key (some ⟨c.count + 1, c.expiresAt⟩))
    else (1, Function.update store key (some ⟨1, now + limit.Duration⟩))
  | none => (1, Function.update store key (some ⟨1, now + limit.Duration⟩))

/-- Modelled from the spec: the `Decision` record (section 3). -/
structure Decision where
  Allowed : Bool
  Count : Nat
  Limit : Limit
  deriving DecidableEq, Repr

/-- Modelled from the spec: `Decide` of the Rate Limiter (section 4.3), which is
not part of the sources, for a store that answers. A disabled limit allows without
a store round-trip; otherwise the key is derived, the counter incremented and
`Allowed = (count ≤ limit.Count)`. -/
def Decide (sep : String) (limit : Limit) (store : Store) (now : Int)
    (client scope : String) : Decision × Store :=
  if limit.Enabled = false then (⟨true, 0, limit⟩, store)
  else
    let r := IncrementAndCheck store now (rateLimitKey sep scope client) limit
    (⟨decide (r.1 ≤ limit.Count), r.1, limit⟩, r.2)

/-- Modelled from the spec: the decisions for successive requests of one client in
one scope, arriving at the given times, each seeing the store left by the previous. -/
def decideAll (sep : String) (limit : Limit) (client scope : String) :
    Store → List Int → List Decision
  | _, [] => []
  | store, now :: rest =>
    (Decide sep limit store now client scope).1 ::
      decideAll sep limit client scope (Decide sep limit store now client scope).2 rest

/-- Whether the key has a counter that is still alive at `now`. -/
def liveAt (store : Store) (key : String) (now : Int) : Bool :=
  match store key with
  | some c => decide (now < c.expiresAt)
  | none => false

/-- The store with no counter at all. -/
def emptyStore : Store := fun _ => none

/-- Case (a): `net.Listen` on the configured address returns an error. -/
def listenFails (W : World) (C : Config) : Bool :=
  match W.listen "tcp" C.address with
  | .error _ => true
  | .ok _ => false

/-- Case (b): the dogstatsd address is non-empty and `statsd.New` returns an error. -/
def statsdFails (W : World) (C : Config) : Bool :=
  decide (C.dogstatsdAddress ≠ "") &&
    match W.statsdNew C.dogstatsdAddress with
    | .error _ => true
    | .ok _ => false

/-- Case (d): `Serve` is reached and returns a non-nil error. -/
def serveFails (W : World) (C : Config) : Bool :=
  match W.listen "tcp" C.address with
  | .error _ => false
  | .ok l =>
    !statsdFails W C &&
      match W.serve l with
      | .returns (some _) => true
      | _ => false

/-- The command line `--redis-max-idle-conns=30`. -/
def idle30Args : Args :=
  fun n => if n = "redis-max-idle-conns" then some "30" else none

/-- The command line `--limit=0`. -/
def limit0Args : Args :=
  fun n => if n = "limit" then some "0" else none

/-- A world in which `Serve` returns an error. -/
def serveErrWorld : World :=
  { listen := fun network addr => .ok ⟨network, addr⟩
    statsdNew := fun addr => .ok ⟨addr, ""⟩
    serve := fun _ => .returns (some "accept: too many open files") }

/-- The default configuration with a dogstatsd address. -/
def datadogConfig : Config :=
  { defaultConfig with dogstatsdAddress := "127.0.0.1:8125" }

/-- The default configuration with a log level no parser knows. -/
def loudConfig : Config :=
  { defaultConfig with logLevel := "loud" }

/-- The default configuration with a limit of two requests. -/
def limit2Config : Config :=
  { defaultConfig with reqLimit := 2 }

/-! ## Helper lemmas -/

theorem utf8ByteSize_go_eq_zero (cs : List Char) :
    String.utf8ByteSize.go cs = 0 ↔ cs = [] := by
  cases cs with
  | nil => simp [String.utf8ByteSize.go]
  | cons c cs =>
    have h := Char.utf8Size_pos c
    simp [String.utf8ByteSize.go]
    omega

theorem utf8ByteSize_eq_zero (s : String) : s.utf8ByteSize = 0 ↔ s = "" := by
  cases s with
  | mk cs =>
    simp only [String.utf8ByteSize, utf8ByteSize_go_eq_zero]
    constructor
    · intro h; subst h; rfl
    · intro h; exact congrArg String.data h

theorem utf8ByteSize_beq_zero (s : String) : (s.utf8ByteSize == 0) = decide (s = "") := by
  by_cases h : s = ""
  · subst h; rfl
  · have := (utf8ByteSize_eq_zero s).not.mpr h
    simp [h, this]

theorem serveWith_some (W : World) (C : Config) (l : Listener) (r : MetricReporter)
    (err : String) (h : W.serve l = .returns (some err)) :
    serveWith W C l r =
      ⟨wiring C l r ++ [Event.log Level.error (some err) "error running server" [],
        Event.exit 1], some 1⟩ := by
  simp [serveWith, h]

theorem serveWith_none (W : World) (C : Config) (l : Listener) (r : MetricReporter)
    (h : W.serve l = .returns none) : serveWith W C l r = ⟨wiring C l r, some 0⟩ := by
  simp [serveWith, h]

theorem serveWith_blocks (W : World) (C : Config) (l : Listener) (r : MetricReporter)
    (h : W.serve l = .blocks) : serveWith W C l r = ⟨wiring C l r, none⟩ := by
  simp [serveWith, h]

theorem run_listen_error (L : Lib) (W : World) (C : Config) (err : String)
    (h : W.listen "tcp" C.address = .error err) :
    run L W C = ⟨startup L C ++
      [Event.log Level.error (some err) "could not listen on %s" [LogArg.str C.address],
       Event.exit 1], some 1⟩ := by
  simp [run, h]

theorem run_null (L : Lib) (W : World) (C : Config) (l : Listener)
    (h : W.listen "tcp" C.address = .ok l) (he : C.dogstatsdAddress = "") :
    run L W C = ⟨startup L C ++ Event.assignReporter MetricReporter.NullReporter ::
      (serveWith W C l MetricReporter.NullReporter).trace,
      (serveWith W C l MetricReporter.NullReporter).exitCode⟩ := by
  simp [run, h, utf8ByteSize_beq_zero, he]

theorem run_statsd_error (L : Lib) (W : World) (C : Config) (l : Listener) (err : String)
    (h : W.listen "tcp" C.address = .ok l) (he : C.dogstatsdAddress ≠ "")
    (hs : W.statsdNew C.dogstatsdAddress = .error err) :
    run L W C = ⟨startup L C ++
      [Event.statsdNew C.dogstatsdAddress,
       Event.log Level.error (some err)
         "could create dogstatsd client with address %s" [LogArg.str C.dogstatsdAddress],
       Event.exit 1], some 1⟩ := by
  simp [run, h, utf8ByteSize_beq_zero, he, hs]

theorem run_datadog (L : Lib) (W : World) (C : Config) (l : Listener) (cl : StatsdClient)
    (h : W.listen "tcp" C.address = .ok l) (he : C.dogstatsdAddress ≠ "")
    (hs : W.statsdNew C.dogstatsdAddress = .ok cl) :
    run L W C = ⟨startup L C ++ Event.statsdNew C.dogstatsdAddress ::
      Event.assignReporter
        (MetricReporter.DataDogReporter { cl with Namespace := "guardian." } C.ingressClass) ::
      (serveWith W C l
        (MetricReporter.DataDogReporter { cl with Namespace := "guardian." }
          C.ingressClass)).trace,
      (serveWith W C l
        (MetricReporter.DataDogReporter { cl with Namespace := "guardian." }
          C.ingressClass)).exitCode⟩ := by
  simp [run, h, utf8ByteSize_beq_zero, he, hs]

/-- The shape of the trace of `serveWith`: the wiring calls, then possibly the
error report of `Serve`. -/
theorem serveWith_trace (W : World) (C : Config) (l : Listener) (r : MetricReporter) :
    ∃ post, (serveWith W C l r).trace = wiring C l r ++ post ∧
      ∀ e ∈ post, (∃ err, e = Event.log Level.error (some err) "error running server" []) ∨
        e = Event.exit 1 := by
  rcases h : W.serve l with _ | (_ | err)
  · exact ⟨[], by simp [serveWith_blocks W C l r h]⟩
  · exact ⟨[], by simp [serveWith_none W C l r h]⟩
  · refine ⟨_, by rw [serveWith_some W C l r err h], ?_⟩
    intro e he
    simp at he
    rcases he with he | he
    · exact Or.inl ⟨err, he⟩
    · exact Or.inr he

/-- The three ways a run can go: the listener cannot be had; the statsd client
cannot be had; or a reporter is chosen, the wiring is done and `Serve` is called. -/
theorem run_cases (L : Lib) (W : World) (C : Config) :
    (∃ err, W.listen "tcp" C.address = .error err ∧
      run L W C = ⟨startup L C ++
        [Event.log Level.error (some err) "could not listen on %s" [LogArg.str C.address],
         Event.exit 1], some 1⟩) ∨
    (∃ l err, W.listen "tcp" C.address = .ok l ∧ C.dogstatsdAddress ≠ "" ∧
      W.statsdNew C.dogstatsdAddress = .error err ∧
      run L W C = ⟨startup L C ++
        [Event.statsdNew C.dogstatsdAddress,
         Event.log Level.error (some err)
           "could create dogstatsd client with address %s" [LogArg.str C.dogstatsdAddress],
         Event.exit 1], some 1⟩) ∨
    (∃ l r pre post code, W.listen "tcp" C.address = .ok l ∧
      ((C.dogstatsdAddress = "" ∧ r = MetricReporter.NullReporter ∧
          pre = [Event.assignReporter r]) ∨
        (C.dogstatsdAddress ≠ "" ∧ ∃ cl, W.statsdNew C.dogstatsdAddress = .ok cl ∧
          r = MetricReporter.DataDogReporter { cl with Namespace := "guardian." }
            C.ingressClass ∧
          pre = [Event.statsdNew C.dogstatsdAddress, Event.assignReporter r])) ∧
      ((post = [] ∧ ((W.serve l = .returns none ∧ code = some 0) ∨
          (W.serve l = .blocks ∧ code = none))) ∨
        (∃ err, W.serve l = .returns (some err) ∧ code = some 1 ∧
          post = [Event.log Level.error (some err) "error running server" [],
            Event.exit 1])) ∧
      run L W C = ⟨startup L C ++ (pre ++ (wiring C l r ++ post)), code⟩) := by
  cases hl : W.listen "tcp" C.address with
  | error err => exact Or.inl ⟨err, rfl, run_listen_error L W C err hl⟩
  | ok l =>
    by_cases he : C.dogstatsdAddress = ""
    · refine Or.inr (Or.inr ?_)
      rcases hs : W.serve l with _ | (_ | err)
      · refine ⟨l, _, _, [], none, rfl, Or.inl ⟨he, rfl, rfl⟩,
          Or.inl ⟨rfl, Or.inr ⟨hs, rfl⟩⟩, ?_⟩
        rw [run_null L W C l hl he, serveWith_blocks W C l _ hs]
        simp
      · refine ⟨l, _, _, [], some 0, rfl, Or.inl ⟨he, rfl, rfl⟩,
          Or.inl ⟨rfl, Or.inl ⟨hs, rfl⟩⟩, ?_⟩
        rw [run_null L W C l hl he, serveWith_none W C l _ hs]
        simp
      · refine ⟨l, _, _, _, some 1, rfl, Or.inl ⟨he, rfl, rfl⟩,
          Or.inr ⟨err, hs, rfl, rfl⟩, ?_⟩
        rw [run_null L W C l hl he, serveWith_some W C l _ err hs]
        simp
    · cases hd : W.statsdNew C.dogstatsdAddress with
      | error err =>
        exact Or.inr (Or.inl ⟨l, err, rfl, he, rfl, run_statsd_error L W C l err hl he hd⟩)
      | ok cl =>
        refine Or.inr (Or.inr ?_)
        rcases hs : W.serve l with _ | (_ | err)
        · refine ⟨l, _, _, [], none, rfl, Or.inr ⟨he, cl, rfl, rfl, rfl⟩,
            Or.inl ⟨rfl, Or.inr ⟨hs, rfl⟩⟩, ?_⟩
          rw [run_datadog L W C l cl hl he hd, serveWith_blocks W C l _ hs]
          simp
        · refine ⟨l, _, _, [], some 0, rfl, Or.inr ⟨he, cl, rfl, rfl, rfl⟩,
            Or.inl ⟨rfl, Or.inl ⟨hs, rfl⟩⟩, ?_⟩
          rw [run_datadog L W C l cl hl he hd, serveWith_none W C l _ hs]
          simp
        · refine ⟨l, _, _, _, some 1, rfl, Or.inr ⟨he, cl, rfl, rfl, rfl⟩,
            Or.inr ⟨err, hs, rfl, rfl⟩, ?_⟩
          rw [run_datadog L W C l cl hl he hd, serveWith_some W C l _ err hs]
          simp

/-- Every `NewRedisLimitStore` call in a run carries the limit and pool options built
from the configuration and the three package-level timeouts, in that order. -/
theorem store_call_of_mem (L : Lib) (W : World) (C : Config) (lim : Limit)
    (opts : RedisPoolOpts) (a b c : Duration)
    (h : Event.newRedisLimitStore lim opts a b c ∈ (run L W C).trace) :
    lim = mkLimit C ∧ opts = mkRedisOpts C ∧ a = DefaultRedisConnectTimeout ∧
      b = DefaultRedisReadTimeout ∧ c = DefaultRedisWriteTimeout := by
  cases hl : W.listen "tcp" C.address with
  | error err =>
    rw [run_listen_error L W C err hl] at h
    simp [startup] at h
  | ok l =>
    by_cases he : C.dogstatsdAddress = ""
    · rw [run_null L W C l hl he] at h
      obtain ⟨post, hp, hpost⟩ := serveWith_trace W C l MetricReporter.NullReporter
      rw [hp] at h
      simp only [List.mem_append, List.mem_cons] at h
      rcases h with h | h | h | h
      · simp [startup] at h
      · cases h
      · simp [wiring] at h; exact h
      · rcases hpost _ h with ⟨err, h2⟩ | h2 <;> cases h2
    · cases hs : W.statsdNew C.dogstatsdAddress with
      | error err =>
        rw [run_statsd_error L W C l err hl he hs] at h
        simp [startup] at h
      | ok cl =>
        rw [run_datadog L W C l cl hl he hs] at h
        obtain ⟨post, hp, hpost⟩ := serveWith_trace W C l
          (MetricReporter.DataDogReporter { cl with Namespace := "guardian." } C.ingressClass)
        rw [hp] at h
        simp only [List.mem_append, List.mem_cons] at h
        rcases h with h | h | h | h | h
        · simp [startup] at h
        · cases h
        · cases h
        · simp [wiring] at h; exact h
        · rcases hpost _ h with ⟨err, h2⟩ | h2 <;> cases h2

/-- When the listener and the reporter can be had, the run makes the
`NewRedisLimitStore` call. -/
theorem store_call_mem (L : Lib) (W : World) (C : Config) (l : Listener)
    (hl : W.listen "tcp" C.address = .ok l)
    (hd : C.dogstatsdAddress = "" ∨ ∃ cl, W.statsdNew C.dogstatsdAddress = .ok cl) :
    Event.newRedisLimitStore (mkLimit C) (mkRedisOpts C) DefaultRedisConnectTimeout
      DefaultRedisReadTimeout DefaultRedisWriteTimeout ∈ (run L W C).trace := by
  by_cases he : C.dogstatsdAddress = ""
  · rw [run_null L W C l hl he]
    obtain ⟨post, hp, -⟩ := serveWith_trace W C l MetricReporter.NullReporter
    rw [hp]
    simp [wiring]
  · rcases hd with hd | ⟨cl, hcl⟩
    · exact absurd hd he
    · rw [run_datadog L W C l cl hl he hcl]
      obtain ⟨post, hp, -⟩ := serveWith_trace W C l
        (MetricReporter.DataDogReporter { cl with Namespace := "guardian." } C.ingressClass)
      rw [hp]
      simp [wiring]

/-- The calls after the listen step do not depend on the log-level text. -/
theorem run_logLevel_frame (L : Lib) (W : World) (C : Config) :
    ∃ rest code, ∀ s, run L W { C with logLevel := s } =
      ⟨startup L { C with logLevel := s } ++ rest, code⟩ := by
  cases hl : W.listen "tcp" C.address with
  | error err =>
    exact ⟨[Event.log Level.error (some err) "could not listen on %s" [LogArg.str C.address],
      Event.exit 1], some 1, fun s => run_listen_error L W { C with logLevel := s } err hl⟩
  | ok l =>
    by_cases he : C.dogstatsdAddress = ""
    · exact ⟨Event.assignReporter MetricReporter.NullReporter ::
        (serveWith W C l MetricReporter.NullReporter).trace,
        (serveWith W C l MetricReporter.NullReporter).exitCode,
        fun s => run_null L W { C with logLevel := s } l hl he⟩
    · cases hd : W.statsdNew C.dogstatsdAddress with
      | error err =>
        exact ⟨[Event.statsdNew C.dogstatsdAddress,
          Event.log Level.error (some err)
            "could create dogstatsd client with address %s" [LogArg.str C.dogstatsdAddress],
          Event.exit 1], some 1,
          fun s => run_statsd_error L W { C with logLevel := s } l err hl he hd⟩
      | ok cl =>
        exact ⟨Event.statsdNew C.dogstatsdAddress ::
          Event.assignReporter
            (MetricReporter.DataDogReporter { cl with Namespace := "guardian." }
              C.ingressClass) ::
          (serveWith W C l
            (MetricReporter.DataDogReporter { cl with Namespace := "guardian." }
              C.ingressClass)).trace,
          (serveWith W C l
            (MetricReporter.DataDogReporter { cl with Namespace := "guardian." }
              C.ingressClass)).exitCode,
          fun s => run_datadog L W { C with logLevel := s } l cl hl he hd⟩

/-- After the listen step no call changes the logger's level. -/
theorem run_trace_startup (L : Lib) (W : World) (C : Config) :
    ∃ rest, (run L W C).trace = startup L C ++ rest ∧
      ∀ e ∈ rest, ∀ l, e ≠ Event.setLevel l := by
  rcases run_cases L W C with ⟨err, -, hr⟩ | ⟨l, err, -, -, -, hr⟩ |
    ⟨l, r0, pre, post, code, -, hsel, hsrv, hr⟩
  · exact ⟨_, by rw [hr], by simp⟩
  · exact ⟨_, by rw [hr], by simp⟩
  · refine ⟨_, by rw [hr], ?_⟩
    rcases hsel with ⟨-, -, rfl⟩ | ⟨-, cl, -, -, rfl⟩ <;>
      rcases hsrv with ⟨rfl, -⟩ | ⟨e, -, -, rfl⟩ <;>
      simp [wiring]

/-- While the logger's level stays at least `ErrorLevel`, an error-level log call
carrying `err` is let through. -/
theorem emitted_any_logsError (err : String) (cur : Level)
    (hcur : Level.error.rank ≤ cur.rank) (t : List Event) :
    (∀ e ∈ t, ∀ l, e ≠ Event.setLevel l) → t.any (Event.logsError err) = true →
    (emitted cur t).any (Event.logsError err) = true := by
  induction t with
  | nil => intro _ h; simp at h
  | cons e t ih =>
    intro hno h
    have hno2 : ∀ e2 ∈ t, ∀ l, e2 ≠ Event.setLevel l :=
      fun e2 he2 => hno e2 (List.mem_cons_of_mem _ he2)
    rw [List.any_cons, Bool.or_eq_true] at h
    cases e with
    | setLevel l => exact absurd rfl (hno _ (List.mem_cons_self _ _) l)
    | log lvl er fmt as =>
      rcases h with h | h
      · have hlvl : lvl = Level.error := by
          cases lvl <;> cases er <;> simp [Event.logsError] at h
          rfl
        subst hlvl
        simp [emitted, hcur, h]
      · have := ih hno2 h
        by_cases hr : lvl.rank ≤ cur.rank
        · simp [emitted, hr, this]
        · simp [emitted, hr, this]
    | listen n a =>
      rcases h with h | h
      · simp [Event.logsError] at h
      · simpa [emitted] using ih hno2 h
    | statsdNew a =>
      rcases h with h | h
      · simp [Event.logsError] at h
      · simpa [emitted] using ih hno2 h
    | assignReporter r =>
      rcases h with h | h
      · simp [Event.logsError] at h
      · simpa [emitted] using ih hno2 h
    | newRedisLimitStore lim opts a b c =>
      rcases h with h | h
      · simp [Event.logsError] at h
      · simpa [emitted] using ih hno2 h
    | newIPRateLimiter =>
      rcases h with h | h
      · simp [Event.logsError] at h
      · simpa [emitted] using ih hno2 h
    | newServer ro r =>
      rcases h with h | h
      · simp [Event.logsError] at h
      · simpa [emitted] using ih hno2 h
    | serve l =>
      rcases h with h | h
      · simp [Event.logsError] at h
      · simpa [emitted] using ih hno2 h
    | exit n =>
      rcases h with h | h
      · simp [Event.logsError] at h
      · simpa [emitted] using ih hno2 h

/-- An error-level log call is let through only by a logger whose level is at least
`ErrorLevel`. -/
theorem rank_of_emitted_logsError (err : String) (cur : Level) (t : List Event) :
    (∀ e ∈ t, ∀ l, e ≠ Event.setLevel l) →
    (emitted cur t).any (Event.logsError err) = true → Level.error.rank ≤ cur.rank := by
  induction t with
  | nil => intro _ h; simp [emitted] at h
  | cons e t ih =>
    intro hno h
    have hno2 : ∀ e2 ∈ t, ∀ l, e2 ≠ Event.setLevel l :=
      fun e2 he2 => hno e2 (List.mem_cons_of_mem _ he2)
    cases e with
    | setLevel l => exact absurd rfl (hno _ (List.mem_cons_self _ _) l)
    | log lvl er fmt as =>
      by_cases hr : lvl.rank ≤ cur.rank
      · simp only [emitted, hr, if_true, List.any_cons, Bool.or_eq_true] at h
        rcases h with h | h
        · have hlvl : lvl = Level.error := by
            cases lvl <;> cases er <;> simp [Event.logsError] at h
            rfl
          subst hlvl
          exact hr
        · exact ih hno2 h
      · simp only [emitted, hr, if_false] at h
        exact ih hno2 h
    | listen n a => exact ih hno2 (by simpa [emitted] using h)
    | statsdNew a => exact ih hno2 (by simpa [emitted] using h)
    | assignReporter r => exact ih hno2 (by simpa [emitted] using h)
    | newRedisLimitStore lim opts a b c => exact ih hno2 (by simpa [emitted] using h)
    | newIPRateLimiter => exact ih hno2 (by simpa [emitted] using h)
    | newServer ro r => exact ih hno2 (by simpa [emitted] using h)
    | serve l => exact ih hno2 (by simpa [emitted] using h)
    | exit n => exact ih hno2 (by simpa [emitted] using h)

/-- With a live counter holding `k` for the key, successive requests before its expiry
see the counts `k + 1`, `k + 2`, ... and are allowed while the count is within the
limit. -/
theorem decideAll_live (sep : String) (limit : Limit) (client scope : String)
    (hen : limit.Enabled = true) (ts : List Int) :
    ∀ (store : Store) (k : Nat) (e : Int),
      store (rateLimitKey sep scope client) = some ⟨k, e⟩ → (∀ t ∈ ts, t < e) →
      decideAll sep limit client scope store ts =
        (List.range ts.length).map
          (fun i => ⟨decide (k + 1 + i ≤ limit.Count), k + 1 + i, limit⟩) := by
  induction ts with
  | nil => intro store k e _ _; simp [decideAll]
  | cons t ts ih =>
    intro store k e hs ht
    have hte : t < e := ht t (List.mem_cons_self _ _)
    have hstep : Decide sep limit store t client scope =
        (⟨decide (k + 1 ≤ limit.Count), k + 1, limit⟩,
          Function.update store (rateLimitKey sep scope client) (some ⟨k + 1, e⟩)) := by
      simp [Decide, hen, IncrementAndCheck, hs, hte]
    have hrest := ih (Function.update store (rateLimitKey sep scope client)
      (some ⟨k + 1, e⟩)) (k + 1) e (by simp)
      (fun u hu => ht u (List.mem_cons_of_mem _ hu))
    simp only [decideAll, hstep, hrest, List.length_cons, List.range_succ_eq_map,
      List.map_cons, List.map_map]
    refine congrArg₂ _ (by simp) ?_
    apply List.map_congr_left
    intro i _
    simp only [Function.comp]
    have : k + 1 + 1 + i = k + 1 + (i + 1) := by omega
    rw [this]

/-- The first request of a window, one that finds no live counter, creates the
counter with count 1 and expiry `now + limit.Duration`. -/
theorem Decide_fresh (sep : String) (limit : Limit) (client scope : String)
    (hen : limit.Enabled = true) (store : Store) (now : Int)
    (hfresh : liveAt store (rateLimitKey sep scope client) now = false) :
    Decide sep limit store now client scope =
      (⟨decide (1 ≤ limit.Count), 1, limit⟩,
        Function.update store (rateLimitKey sep scope client)
          (some ⟨1, now + limit.Duration⟩)) := by
  unfold liveAt at hfresh
  cases hs : store (rateLimitKey sep scope client) with
  | none => simp [Decide, hen, IncrementAndCheck, hs]
  | some c =>
    rw [hs] at hfresh
    have hnl : ¬ now < c.expiresAt := by simpa using hfresh
    simp [Decide, hen, IncrementAndCheck, hs, hnl]

/-- The decisions for a window opened at `now`: request number `i + 1` sees the count
`i + 1` and is allowed exactly when `i + 1` is within the limit. -/
theorem decideAll_window (sep : String) (limit : Limit) (client scope : String)
    (hen : limit.Enabled = true) (store : Store) (now : Int) (rest : List Int)
    (hfresh : liveAt store (rateLimitKey sep scope client) now = false)
    (hwin : ∀ t ∈ rest, t < now + limit.Duration) :
    decideAll sep limit client scope store (now :: rest) =
      (List.range (rest.length + 1)).map
        (fun i => ⟨decide (i + 1 ≤ limit.Count), i + 1, limit⟩) := by
  have h1 := Decide_fresh sep limit client scope hen store now hfresh
  have h2 := decideAll_live sep limit client scope hen rest
    (Function.update store (rateLimitKey sep scope client)
      (some ⟨1, now + limit.Duration⟩)) 1 (now + limit.Duration) (by simp) hwin
  simp only [decideAll, h1, h2, List.range_succ_eq_map, List.map_cons, List.map_map]
  refine congrArg₂ _ (by simp) ?_
  apply List.map_congr_left
  intro i _
  simp only [Function.comp]
  have : 1 + 1 + i = i + 1 + 1 := by omega
  rw [this]

/-! ## Claims -/

/-- C1 (evaluated at the failing input): the variable registered for `limit-enabled`
is `LIMIT_ENBALED`, not the `LIMIT_ENABLED` of the specification, while the other ten
flags carry the specified variable; so with no flag given and `LIMIT_ENABLED=false`
in the environment the flag keeps its default and the limit main hands to
`NewRedisLimitStore` has `Enabled = true`. -/
theorem C1_limit_enabled_envar_misspelt :
    envarOf "limit-enabled" = some "LIMIT_ENBALED" ∧
    specPairs.filter (fun p => envarOf p.1 != some p.2) =
      [("limit-enabled", "LIMIT_ENABLED")] ∧
    limitEnabledFalseEnv "LIMIT_ENABLED" = "false" ∧
    (parseFlags refLib noArgs limitEnabledFalseEnv).map mkLimit =
      some { Count := 10, Duration := Second, Enabled := true } ∧
    Event.newRedisLimitStore { Count := 10, Duration := Second, Enabled := true }
      (mkRedisOpts defaultConfig) DefaultRedisConnectTimeout DefaultRedisReadTimeout
      DefaultRedisWriteTimeout ∈ (main refLib calmWorld noArgs limitEnabledFalseEnv).trace := by
  refine ⟨by decide, by decide, by decide, by decide, by decide⟩

/-- C2: with no flag passed and no overriding environment variable set, and the
library parsers reading the declared default texts as Go does, `kingpin.Parse()`
yields log-level "warn", address "0.0.0.0:3000", redis-address "", 20 idle and 20
active connections, dogstatsd-address "", report-only false, limit 10,
limit-duration one second, limit-enabled true and ingress-class "default". -/
theorem C2_defaults (L : Lib) (args : Args) (env : Environ)
    (hargs : ∀ f ∈ flags, args f.name = none)
    (henv : ∀ f ∈ flags, env f.envar = "")
    (hint : L.parseInt "20" = some 20)
    (huint : L.parseUint64 "10" = some 10)
    (hdur : L.parseDuration "1s" = some 1000000000)
    (htrue : L.parseBool "true" = some true)
    (hfalse : L.parseBool "false" = some false) :
    parseFlags L args env =
      some { logLevel := "warn", address := "0.0.0.0:3000", redisAddress := "",
             redisMaxIdle := 20, redisMaxActive := 20, dogstatsdAddress := "",
             reportOnly := false, reqLimit := 10, limitDuration := 1000000000,
             limitEnabled := true, ingressClass := "default" } := by
  have raw_eq : ∀ f ∈ flags, f.raw args env = f.defaultValue := by
    intro f hf
    simp [FlagClause.raw, hargs f hf, henv f hf]
  have h1 := raw_eq logLevelFlag (by decide)
  have h2 := raw_eq addressFlag (by decide)
  have h3 := raw_eq redisAddressFlag (by decide)
  have h4 := raw_eq redisMaxIdleFlag (by decide)
  have h5 := raw_eq redisMaxActiveFlag (by decide)
  have h6 := raw_eq dogstatsdAddressFlag (by decide)
  have h7 := raw_eq reportOnlyFlag (by decide)
  have h8 := raw_eq reqLimitFlag (by decide)
  have h9 := raw_eq limitDurationFlag (by decide)
  have h10 := raw_eq limitEnabledFlag (by decide)
  have h11 := raw_eq ingressClassFlag (by decide)
  simp only [parseFlags, typedValue, stringValue, h1, h2, h3, h4, h5, h6, h7, h8, h9,
    h10, h11]
  simp [logLevelFlag, addressFlag, redisAddressFlag, redisMaxIdleFlag, redisMaxActiveFlag,
    dogstatsdAddressFlag, reportOnlyFlag, reqLimitFlag, limitDurationFlag,
    limitEnabledFlag, ingressClassFlag, hint, huint, hdur, htrue, hfalse]

/-- C2 at the reference library, an empty command line and an empty environment. -/
theorem C2_defaults_witness :
    parseFlags refLib noArgs emptyEnv =
      some { logLevel := "warn", address := "0.0.0.0:3000", redisAddress := "",
             redisMaxIdle := 20, redisMaxActive := 20, dogstatsdAddress := "",
             reportOnly := false, reqLimit := 10, limitDuration := 1000000000,
             limitEnabled := true, ingressClass := "default" } :=
  C2_defaults refLib noArgs emptyEnv (fun _ _ => rfl) (fun _ _ => rfl)
    (by decide) (by decide) (by decide) (by decide) (by decide)

/-- C6 (as stated, refuted): the command line `--redis-max-idle-conns=30` passes flag
parsing, and the pool options main hands to `NewRedisLimitStore` then have
`MaxIdleConns = 30` above `MaxActiveConns = 20`. -/
theorem C6_counterexample :
    parseFlags refLib idle30Args emptyEnv =
      some { defaultConfig with redisMaxIdle := 30 } ∧
    Event.newRedisLimitStore (mkLimit defaultConfig)
      { Addr := "", MaxActiveConns := 20, MaxIdleConns := 30, Wait := true }
      DefaultRedisConnectTimeout DefaultRedisReadTimeout DefaultRedisWriteTimeout ∈
      (main refLib calmWorld idle30Args emptyEnv).trace ∧
    ¬ ((mkRedisOpts { defaultConfig with redisMaxIdle := 30 }).MaxIdleConns ≤
      (mkRedisOpts { defaultConfig with redisMaxIdle := 30 }).MaxActiveConns) := by
  refine ⟨by decide, by decide, by decide⟩

/-- C6 (amended): the pool options main hands to the limit store carry the configured
redis-max-idle-conns and redis-max-active-conns unchanged, so they satisfy
`MaxIdleConns ≤ MaxActiveConns` exactly when the configured values do. -/
theorem C6_pool_opts_as_configured (L : Lib) (W : World) (C : Config) (lim : Limit)
    (opts : RedisPoolOpts) (a b c : Duration)
    (h : Event.newRedisLimitStore lim opts a b c ∈ (run L W C).trace) :
    opts.MaxIdleConns = C.redisMaxIdle ∧ opts.MaxActiveConns = C.redisMaxActive ∧
      (opts.MaxIdleConns ≤ opts.MaxActiveConns ↔ C.redisMaxIdle ≤ C.redisMaxActive) := by
  obtain ⟨-, ho, -⟩ := store_call_of_mem L W C lim opts a b c h
  subst ho
  simp [mkRedisOpts]

/-- C6 (amended) at the default configuration, where 20 ≤ 20. -/
theorem C6_pool_opts_as_configured_witness :
    Event.newRedisLimitStore (mkLimit defaultConfig) (mkRedisOpts defaultConfig)
        DefaultRedisConnectTimeout DefaultRedisReadTimeout DefaultRedisWriteTimeout ∈
        (run refLib calmWorld defaultConfig).trace ∧
      ((mkRedisOpts defaultConfig).MaxIdleConns = 20 ∧
        (mkRedisOpts defaultConfig).MaxActiveConns = 20 ∧
        ((mkRedisOpts defaultConfig).MaxIdleConns ≤ (mkRedisOpts defaultConfig).MaxActiveConns ↔
          (20 : Int) ≤ 20)) :=
  ⟨by decide, C6_pool_opts_as_configured refLib calmWorld defaultConfig (mkLimit defaultConfig)
    (mkRedisOpts defaultConfig) DefaultRedisConnectTimeout DefaultRedisReadTimeout
    DefaultRedisWriteTimeout (by decide)⟩

/-- C7 (as stated, refuted): the command line `--limit=0` passes flag parsing, and the
limit main hands to `NewRedisLimitStore` then has `Enabled = true` with `Count = 0`. -/
theorem C7_counterexample :
    parseFlags refLib limit0Args emptyEnv = some { defaultConfig with reqLimit := 0 } ∧
    Event.newRedisLimitStore { Count := 0, Duration := Second, Enabled := true }
      (mkRedisOpts defaultConfig)
      DefaultRedisConnectTimeout DefaultRedisReadTimeout DefaultRedisWriteTimeout ∈
      (main refLib calmWorld limit0Args emptyEnv).trace ∧
    ¬ ((mkLimit { defaultConfig with reqLimit := 0 }).Enabled = true →
      0 < (mkLimit { defaultConfig with reqLimit := 0 }).Count ∧
      0 < (mkLimit { defaultConfig with reqLimit := 0 }).Duration) := by
  refine ⟨by decide, by decide, by decide⟩

/-- C7 (amended): the limit main hands to the limit store carries the configured
limit, limit-duration and limit-enabled unchanged, so "Enabled implies Count > 0 and
Duration > 0" holds for it exactly when it holds for the configured values. -/
theorem C7_limit_as_configured (L : Lib) (W : World) (C : Config) (lim : Limit)
    (opts : RedisPoolOpts) (a b c : Duration)
    (h : Event.newRedisLimitStore lim opts a b c ∈ (run L W C).trace) :
    lim.Count = C.reqLimit ∧ lim.Duration = C.limitDuration ∧
      lim.Enabled = C.limitEnabled ∧
      ((lim.Enabled = true → 0 < lim.Count ∧ 0 < lim.Duration) ↔
        (C.limitEnabled = true → 0 < C.reqLimit ∧ 0 < C.limitDuration)) := by
  obtain ⟨hlim, -⟩ := store_call_of_mem L W C lim opts a b c h
  subst hlim
  simp [mkLimit]

/-- C7 (amended) at the default configuration: limit 10 over one second, enabled. -/
theorem C7_limit_as_configured_witness :
    Event.newRedisLimitStore (mkLimit defaultConfig) (mkRedisOpts defaultConfig)
        DefaultRedisConnectTimeout DefaultRedisReadTimeout DefaultRedisWriteTimeout ∈
        (run refLib calmWorld defaultConfig).trace ∧
      ((mkLimit defaultConfig).Count = 10 ∧ (mkLimit defaultConfig).Duration = Second ∧
        (mkLimit defaultConfig).Enabled = true ∧
        (((mkLimit defaultConfig).Enabled = true →
            0 < (mkLimit defaultConfig).Count ∧ 0 < (mkLimit defaultConfig).Duration) ↔
          (true = true → 0 < 10 ∧ 0 < Second))) :=
  ⟨by decide, C7_limit_as_configured refLib calmWorld defaultConfig (mkLimit defaultConfig)
    (mkRedisOpts defaultConfig) DefaultRedisConnectTimeout DefaultRedisReadTimeout
    DefaultRedisWriteTimeout (by decide)⟩

/-- C9: main hands the parsed values on unchanged and unswapped. Every
`NewRedisLimitStore` call carries `Count` = limit, `Duration` = limit-duration,
`Enabled` = limit-enabled, `Addr` = redis-address, `MaxActiveConns` =
redis-max-active-conns and `MaxIdleConns` = redis-max-idle-conns; every `NewServer`
call carries report-only; every `net.Listen` call is for the configured address and
the listener passed to `Serve` is the one it returned; and when the listener and the
reporter can be had, these calls are made. -/
theorem C9_pass_through (L : Lib) (W : World) (C : Config) :
    (∀ lim opts a b c, Event.newRedisLimitStore lim opts a b c ∈ (run L W C).trace →
      lim.Count = C.reqLimit ∧ lim.Duration = C.limitDuration ∧
      lim.Enabled = C.limitEnabled ∧ opts.Addr = C.redisAddress ∧
      opts.MaxActiveConns = C.redisMaxActive ∧ opts.MaxIdleConns = C.redisMaxIdle) ∧
    (∀ ro r, Event.newServer ro r ∈ (run L W C).trace → ro = C.reportOnly) ∧
    (∀ network addr, Event.listen network addr ∈ (run L W C).trace →
      network = "tcp" ∧ addr = C.address) ∧
    (∀ l, Event.serve l ∈ (run L W C).trace → W.listen "tcp" C.address = .ok l) ∧
    (∀ l, W.listen "tcp" C.address = .ok l →
      (C.dogstatsdAddress = "" ∨ ∃ cl, W.statsdNew C.dogstatsdAddress = .ok cl) →
      Event.listen "tcp" C.address ∈ (run L W C).trace ∧
      Event.newRedisLimitStore
        { Count := C.reqLimit, Duration := C.limitDuration, Enabled := C.limitEnabled }
        { Addr := C.redisAddress, MaxActiveConns := C.redisMaxActive,
          MaxIdleConns := C.redisMaxIdle, Wait := true }
        DefaultRedisConnectTimeout DefaultRedisReadTimeout DefaultRedisWriteTimeout ∈
        (run L W C).trace ∧
      (∃ r, Event.newServer C.reportOnly r ∈ (run L W C).trace) ∧
      Event.serve l ∈ (run L W C).trace) := by
  refine ⟨?_, ?_, ?_, ?_, ?_⟩
  · intro lim opts a b c h
    obtain ⟨hlim, ho, -⟩ := store_call_of_mem L W C lim opts a b c h
    subst hlim; subst ho
    simp [mkLimit, mkRedisOpts]
  · intro ro r h
    rcases run_cases L W C with ⟨err, -, hr⟩ | ⟨l, err, -, -, -, hr⟩ |
      ⟨l, r0, pre, post, code, -, hsel, hsrv, hr⟩
    · rw [hr] at h; simp [startup] at h
    · rw [hr] at h; simp [startup] at h
    · rw [hr] at h
      rcases hsel with ⟨-, -, rfl⟩ | ⟨-, cl, -, -, rfl⟩ <;>
        rcases hsrv with ⟨rfl, -⟩ | ⟨e, -, -, rfl⟩ <;>
        simp [startup, wiring] at h <;> exact h.1
  · intro network addr h
    rcases run_cases L W C with ⟨err, -, hr⟩ | ⟨l, err, -, -, -, hr⟩ |
      ⟨l, r0, pre, post, code, -, hsel, hsrv, hr⟩
    · rw [hr] at h; simp [startup] at h; exact h
    · rw [hr] at h; simp [startup] at h; exact h
    · rw [hr] at h
      rcases hsel with ⟨-, -, rfl⟩ | ⟨-, cl, -, -, rfl⟩ <;>
        rcases hsrv with ⟨rfl, -⟩ | ⟨e, -, -, rfl⟩ <;>
        simp [startup, wiring] at h <;> exact h
  · intro l0 h
    rcases run_cases L W C with ⟨err, -, hr⟩ | ⟨l, err, -, -, -, hr⟩ |
      ⟨l, r0, pre, post, code, hl, hsel, hsrv, hr⟩
    · rw [hr] at h; simp [startup] at h
    · rw [hr] at h; simp [startup] at h
    · rw [hr] at h
      rcases hsel with ⟨-, -, rfl⟩ | ⟨-, cl, -, -, rfl⟩ <;>
        rcases hsrv with ⟨rfl, -⟩ | ⟨e, -, -, rfl⟩ <;>
        simp [startup, wiring] at h <;> rw [hl, h]
  · intro l0 hl0 hd
    have hstore := store_call_mem L W C l0 hl0 hd
    rcases run_cases L W C with ⟨err, hl, -⟩ | ⟨l, err, -, he, hs, -⟩ |
      ⟨l, r0, pre, post, code, hl, -, -, hr⟩
    · rw [hl0] at hl; cases hl
    · rcases hd with hd | ⟨cl, hcl⟩
      · exact absurd hd he
      · rw [hcl] at hs; cases hs
    · rw [hl0] at hl
      cases hl
      refine ⟨?_, hstore, ⟨r0, ?_⟩, ?_⟩ <;> rw [hr] <;> simp [startup, wiring]

/-- C9 at the default configuration in a world where every call succeeds. -/
theorem C9_pass_through_witness :
    Event.newRedisLimitStore { Count := 10, Duration := Second, Enabled := true }
        { Addr := "", MaxActiveConns := 20, MaxIdleConns := 20, Wait := true }
        DefaultRedisConnectTimeout DefaultRedisReadTimeout DefaultRedisWriteTimeout ∈
        (run refLib calmWorld defaultConfig).trace ∧
      (∃ r, Event.newServer false r ∈ (run refLib calmWorld defaultConfig).trace) ∧
      Event.serve ⟨"tcp", "0.0.0.0:3000"⟩ ∈ (run refLib calmWorld defaultConfig).trace :=
  ((C9_pass_through refLib calmWorld defaultConfig).2.2.2.2 ⟨"tcp", "0.0.0.0:3000"⟩ rfl
    (Or.inl rfl)).2

/-- C10: whatever the command line and the environment, every `NewRedisLimitStore`
call main makes has pool options with `Wait = true` and is given the connect, read
and write timeouts in that order, each 100 milliseconds and so strictly positive; and
when parsing succeeds and the listener and the reporter can be had, the call is made. -/
theorem C10_fixed_pool_policy (L : Lib) (W : World) (args : Args) (env : Environ) :
    (∀ lim opts a b c,
      Event.newRedisLimitStore lim opts a b c ∈ (main L W args env).trace →
      opts.Wait = true ∧ a = DefaultRedisConnectTimeout ∧ b = DefaultRedisReadTimeout ∧
      c = DefaultRedisWriteTimeout ∧ a = 100 * Millisecond ∧ b = 100 * Millisecond ∧
      c = 100 * Millisecond ∧ 0 < a ∧ 0 < b ∧ 0 < c) ∧
    (∀ C l, parseFlags L args env = some C → W.listen "tcp" C.address = .ok l →
      (C.dogstatsdAddress = "" ∨ ∃ cl, W.statsdNew C.dogstatsdAddress = .ok cl) →
      ∃ lim opts, Event.newRedisLimitStore lim opts (100 * Millisecond)
        (100 * Millisecond) (100 * Millisecond) ∈ (main L W args env).trace ∧
        opts.Wait = true) := by
  constructor
  · intro lim opts a b c h
    unfold main at h
    cases hp : parseFlags L args env with
    | none => rw [hp] at h; simp at h
    | some C =>
      rw [hp] at h
      obtain ⟨-, ho, ha, hb, hc⟩ := store_call_of_mem L W C lim opts a b c h
      subst ho; subst ha; subst hb; subst hc
      refine ⟨rfl, rfl, rfl, rfl, rfl, rfl, rfl, ?_, ?_, ?_⟩ <;> decide
  · intro C l hp hl hd
    refine ⟨mkLimit C, mkRedisOpts C, ?_, rfl⟩
    unfold main
    rw [hp]
    exact store_call_mem L W C l hl hd

/-- C10 at the default command line and environment. -/
theorem C10_fixed_pool_policy_witness :
    ∃ lim opts, Event.newRedisLimitStore lim opts (100 * Millisecond)
      (100 * Millisecond) (100 * Millisecond) ∈
        (main refLib calmWorld noArgs emptyEnv).trace ∧ opts.Wait = true :=
  (C10_fixed_pool_policy refLib calmWorld noArgs emptyEnv).2 defaultConfig
    ⟨"tcp", "0.0.0.0:3000"⟩ (by decide) rfl (Or.inl rfl)

/-- C3: whenever main hands a reporter to `NewServer`, that reporter is the
`NullReporter` if and only if the dogstatsd address is empty; for a non-empty address
it is the `DataDogReporter` carrying the client `statsd.New` returned, with namespace
"guardian." and the configured ingress class; the trace holds exactly one assignment
of the reporter, it precedes the `NewServer` call, and none follows it. When the
listener can be had, an empty address does lead to `NewServer` with the
`NullReporter`, and a non-empty address with a successful `statsd.New` to `NewServer`
with the `DataDogReporter`. -/
theorem C3_reporter_selection (L : Lib) (W : World) (C : Config) :
    (∀ ro r, Event.newServer ro r ∈ (run L W C).trace →
      (r = MetricReporter.NullReporter ↔ C.dogstatsdAddress = "") ∧
      (C.dogstatsdAddress ≠ "" → ∃ cl, W.statsdNew C.dogstatsdAddress = .ok cl ∧
        r = MetricReporter.DataDogReporter { cl with Namespace := "guardian." }
          C.ingressClass) ∧
      (run L W C).trace.filter Event.isAssign = [Event.assignReporter r] ∧
      ∃ pre post, (run L W C).trace = pre ++ Event.newServer ro r :: post ∧
        Event.assignReporter r ∈ pre ∧ ∀ e ∈ post, e.isAssign = false) ∧
    (∀ l, W.listen "tcp" C.address = .ok l → C.dogstatsdAddress = "" →
      reportersHanded (run L W C).trace = [MetricReporter.NullReporter]) ∧
    (∀ l cl, W.listen "tcp" C.address = .ok l → C.dogstatsdAddress ≠ "" →
      W.statsdNew C.dogstatsdAddress = .ok cl →
      reportersHanded (run L W C).trace =
        [MetricReporter.DataDogReporter { cl with Namespace := "guardian." }
          C.ingressClass]) := by
  refine ⟨?_, ?_, ?_⟩
  · intro ro r h
    rcases run_cases L W C with ⟨err, -, hr⟩ | ⟨l, err, -, -, -, hr⟩ |
      ⟨l, r0, pre, post, code, -, hsel, hsrv, hr⟩
    · rw [hr] at h; simp [startup] at h
    · rw [hr] at h; simp [startup] at h
    · rw [hr] at h ⊢
      have hro : ro = C.reportOnly ∧ r = r0 := by
        rcases hsel with ⟨-, -, rfl⟩ | ⟨-, cl, -, -, rfl⟩ <;>
          rcases hsrv with ⟨rfl, -⟩ | ⟨e, -, -, rfl⟩ <;>
          simp [startup, wiring] at h <;> exact h
      obtain ⟨rfl, rfl⟩ := hro
      have hpost : ∀ e ∈ Event.serve l :: post, e.isAssign = false := by
        rcases hsrv with ⟨rfl, -⟩ | ⟨e, -, -, rfl⟩ <;>
          simp [Event.isAssign]
      have hfpost : post.filter Event.isAssign = [] := by
        rcases hsrv with ⟨rfl, -⟩ | ⟨e, -, -, rfl⟩ <;>
          simp [Event.isAssign]
      refine ⟨?_, ?_, ?_, ?_⟩
      · rcases hsel with ⟨he, rfl, -⟩ | ⟨he, cl, -, rfl, -⟩
        · simp [he]
        · simp [he]
      · intro hne
        rcases hsel with ⟨he, -, -⟩ | ⟨-, cl, hcl, rfl, -⟩
        · exact absurd he hne
        · exact ⟨cl, hcl, rfl⟩
      · rcases hsel with ⟨-, -, rfl⟩ | ⟨-, cl, -, -, rfl⟩ <;>
          simp [startup, wiring, List.filter_cons, Event.isAssign, hfpost]
      · refine ⟨startup L C ++ (pre ++
          [Event.log Level.info none
              "setting ip rate limiter to use redis store at %v with %v"
              [LogArg.str C.redisAddress, LogArg.limit (mkLimit C)],
            Event.newRedisLimitStore (mkLimit C) (mkRedisOpts C)
              DefaultRedisConnectTimeout DefaultRedisReadTimeout DefaultRedisWriteTimeout,
            Event.newIPRateLimiter,
            Event.log Level.info none "starting server on %v" [LogArg.str C.address]]),
          Event.serve l :: post, ?_, ?_, hpost⟩
        · simp [wiring]
        · rcases hsel with ⟨-, -, rfl⟩ | ⟨-, cl, -, -, rfl⟩ <;> simp
  · intro l hl he
    rw [run_null L W C l hl he]
    rcases hs : W.serve l with _ | (_ | err)
    · simp [serveWith_blocks W C l _ hs, startup, wiring, reportersHanded]
    · simp [serveWith_none W C l _ hs, startup, wiring, reportersHanded]
    · simp [serveWith_some W C l _ err hs, startup, wiring, reportersHanded]
  · intro l cl hl he hcl
    rw [run_datadog L W C l cl hl he hcl]
    rcases hs : W.serve l with _ | (_ | err)
    · simp [serveWith_blocks W C l _ hs, startup, wiring, reportersHanded]
    · simp [serveWith_none W C l _ hs, startup, wiring, reportersHanded]
    · simp [serveWith_some W C l _ err hs, startup, wiring, reportersHanded]

/-- C3 with the dogstatsd address "127.0.0.1:8125" in a world where every call
succeeds: the server gets the `DataDogReporter` with namespace "guardian." and
ingress class "default". -/
theorem C3_reporter_selection_witness :
    reportersHanded (run refLib calmWorld datadogConfig).trace =
      [MetricReporter.DataDogReporter ⟨"127.0.0.1:8125", "guardian."⟩ "default"] :=
  (C3_reporter_selection refLib calmWorld datadogConfig).2.2 ⟨"tcp", "0.0.0.0:3000"⟩
    ⟨"127.0.0.1:8125", ""⟩ rfl (by decide) rfl

/-- C4 (as stated, refuted): with `--log-level=fatal` and a listen address that
cannot be bound, case (a), main makes its `Errorf` call and exits with status 1, but
the logger, set to `FatalLevel` three lines earlier, writes nothing of it: all it has
emitted is the warning that announces the level. The error is not logged. -/
theorem C4_counterexample :
    refLib.parseLevel fatalConfig.logLevel = some Level.fatal ∧
    listenFails noListenWorld fatalConfig = true ∧
    (run refLib noListenWorld fatalConfig).exitCode = some 1 ∧
    (run refLib noListenWorld fatalConfig).trace.any
      (Event.logsError "address already in use") = true ∧
    emitted standardLoggerLevel (run refLib noListenWorld fatalConfig).trace =
      [Event.log Level.warn none "setting log level to %v" [LogArg.level Level.fatal]] ∧
    (emitted standardLoggerLevel (run refLib noListenWorld fatalConfig).trace).any
      (Event.logsError "address already in use") = false := by
  refine ⟨by decide, by decide, by decide, by decide, by decide, by decide⟩

/-- C4 (amended): given that flag parsing succeeded, main ends with status 1 if and
only if (a) listening fails, or (b) the dogstatsd address is non-empty and the statsd
client cannot be constructed, or (d) `Serve` returns a non-nil error; case (c), a
store client that cannot be constructed, is met by no run, `NewRedisLimitStore`
returning a single value and no error at main.go:73. No other non-zero status occurs.
In cases (a) and (b) an error-level log call carrying the error is made and `Serve`
is never called; in case (d) that call is made after the `Serve` call and right
before the exit. The logger writes such a call exactly when the level main has set is
at least `ErrorLevel`: at `FatalLevel` and `PanicLevel` the error is not logged. When
`Serve` returns nil main returns with status 0 without any exit call; while `Serve`
does not return the process does not exit. -/
theorem C4_exit_status (L : Lib) (W : World) (C : Config) :
    ((run L W C).exitCode = some 1 ↔
      (listenFails W C = true ∨ statsdFails W C = true ∨ serveFails W C = true)) ∧
    (∀ n, (run L W C).exitCode = some n → n = 0 ∨ n = 1) ∧
    (∀ err, W.listen "tcp" C.address = .error err →
      (run L W C).trace.any (Event.logsError err) = true ∧
      (run L W C).trace.any Event.isServe = false) ∧
    (∀ l err, W.listen "tcp" C.address = .ok l → C.dogstatsdAddress ≠ "" →
      W.statsdNew C.dogstatsdAddress = .error err →
      (run L W C).trace.any (Event.logsError err) = true ∧
      (run L W C).trace.any Event.isServe = false) ∧
    (∀ l err, W.listen "tcp" C.address = .ok l →
      (C.dogstatsdAddress = "" ∨ ∃ cl, W.statsdNew C.dogstatsdAddress = .ok cl) →
      W.serve l = .returns (some err) →
      ∃ pre, (run L W C).trace =
        pre ++ [Event.log Level.error (some err) "error running server" [], Event.exit 1] ∧
        Event.serve l ∈ pre) ∧
    (∀ l, W.listen "tcp" C.address = .ok l →
      (C.dogstatsdAddress = "" ∨ ∃ cl, W.statsdNew C.dogstatsdAddress = .ok cl) →
      W.serve l = .returns none →
      (run L W C).exitCode = some 0 ∧ Event.serve l ∈ (run L W C).trace ∧
      ∀ n, Event.exit n ∉ (run L W C).trace) ∧
    (∀ l, W.listen "tcp" C.address = .ok l →
      (C.dogstatsdAddress = "" ∨ ∃ cl, W.statsdNew C.dogstatsdAddress = .ok cl) →
      W.serve l = .blocks →
      (run L W C).exitCode = none ∧ Event.serve l ∈ (run L W C).trace) ∧
    (∀ err, (run L W C).trace.any (Event.logsError err) = true →
      ((emitted standardLoggerLevel (run L W C).trace).any (Event.logsError err) = true ↔
        Level.error.rank ≤ (chosenLevel L C).rank)) := by
  refine ⟨?_, ?_, ?_, ?_, ?_, ?_, ?_, ?_⟩
  · rcases run_cases L W C with ⟨err, hl, hr⟩ | ⟨l, err, hl, he, hs, hr⟩ |
      ⟨l, r0, pre, post, code, hl, hsel, hsrv, hr⟩
    · simp [hr, listenFails, hl]
    · simp [hr, listenFails, statsdFails, hl, he, hs]
    · have hns : statsdFails W C = false := by
        rcases hsel with ⟨he, -, -⟩ | ⟨he, cl, hcl, -, -⟩
        · simp [statsdFails, he]
        · simp [statsdFails, hcl]
      rcases hsrv with ⟨-, ⟨hs, rfl⟩ | ⟨hs, rfl⟩⟩ | ⟨e, hs, rfl, -⟩
      · simp [hr, listenFails, serveFails, hl, hns, hs]
      · simp [hr, listenFails, serveFails, hl, hns, hs]
      · simp [hr, listenFails, serveFails, hl, hns, hs]
  · intro n hn
    rcases run_cases L W C with ⟨err, -, hr⟩ | ⟨l, err, -, -, -, hr⟩ |
      ⟨l, r0, pre, post, code, -, -, hsrv, hr⟩
    · rw [hr] at hn; simp at hn; omega
    · rw [hr] at hn; simp at hn; omega
    · rw [hr] at hn
      rcases hsrv with ⟨-, ⟨-, rfl⟩ | ⟨-, rfl⟩⟩ | ⟨e, -, rfl, -⟩ <;> simp at hn <;> omega
  · intro err hl
    rw [run_listen_error L W C err hl]
    simp [startup, Event.logsError, Event.isServe]
  · intro l err hl he hs
    rw [run_statsd_error L W C l err hl he hs]
    simp [startup, Event.logsError, Event.isServe]
  · intro l err hl hd hs
    by_cases he : C.dogstatsdAddress = ""
    · rw [run_null L W C l hl he, serveWith_some W C l _ err hs]
      refine ⟨startup L C ++ Event.assignReporter MetricReporter.NullReporter ::
        wiring C l MetricReporter.NullReporter, by simp, by simp [wiring]⟩
    · rcases hd with hd | ⟨cl, hcl⟩
      · exact absurd hd he
      · rw [run_datadog L W C l cl hl he hcl, serveWith_some W C l _ err hs]
        refine ⟨startup L C ++ Event.statsdNew C.dogstatsdAddress ::
          Event.assignReporter (MetricReporter.DataDogReporter
            { cl with Namespace := "guardian." } C.ingressClass) ::
          wiring C l (MetricReporter.DataDogReporter
            { cl with Namespace := "guardian." } C.ingressClass), by simp, by simp [wiring]⟩
  · intro l hl hd hs
    by_cases he : C.dogstatsdAddress = ""
    · rw [run_null L W C l hl he, serveWith_none W C l _ hs]
      simp [startup, wiring]
    · rcases hd with hd | ⟨cl, hcl⟩
      · exact absurd hd he
      · rw [run_datadog L W C l cl hl he hcl, serveWith_none W C l _ hs]
        simp [startup, wiring]
  · intro l hl hd hs
    by_cases he : C.dogstatsdAddress = ""
    · rw [run_null L W C l hl he, serveWith_blocks W C l _ hs]
      simp [startup, wiring]
    · rcases hd with hd | ⟨cl, hcl⟩
      · exact absurd hd he
      · rw [run_datadog L W C l cl hl he hcl, serveWith_blocks W C l _ hs]
        simp [startup, wiring]
  · intro err hany
    obtain ⟨rest, htr, hno⟩ := run_trace_startup L W C
    rw [htr] at hany ⊢
    have hrest : rest.any (Event.logsError err) = true := by
      simpa [startup, Event.logsError] using hany
    have hshape : (emitted standardLoggerLevel (startup L C ++ rest)).any
        (Event.logsError err) =
        (emitted (chosenLevel L C) rest).any (Event.logsError err) := by
      simp only [startup, List.cons_append, List.nil_append, emitted, standardLoggerLevel]
      simp [Level.rank, Event.logsError]
    rw [hshape]
    exact ⟨rank_of_emitted_logsError err (chosenLevel L C) rest hno,
      fun hlev => emitted_any_logsError err (chosenLevel L C) hlev rest hno hrest⟩

/-- C4 (amended) in a world where `Serve` returns an error: the error is logged, the
exit follows, and the `Serve` call comes before both. -/
theorem C4_exit_status_witness :
    ∃ pre, (run refLib serveErrWorld defaultConfig).trace =
      pre ++ [Event.log Level.error (some "accept: too many open files")
        "error running server" [], Event.exit 1] ∧
      Event.serve ⟨"tcp", "0.0.0.0:3000"⟩ ∈ pre :=
  (C4_exit_status refLib serveErrWorld defaultConfig).2.2.2.2.1 ⟨"tcp", "0.0.0.0:3000"⟩
    "accept: too many open files" rfl (Or.inl rfl) rfl

/-- C5: for a log-level text that `logrus.ParseLevel` rejects, main sets the level to
`ErrorLevel`, whatever the text; its first call is the warning-level message
"setting log level to %v" for that level, which the standard logger emits; then it
sets the level and goes on to listen on the configured address; and from there on the
run, calls and exit status, is the one any other log-level text would give. -/
theorem C5_unknown_log_level (L : Lib) (W : World) (C : Config)
    (h : L.parseLevel C.logLevel = none) :
    chosenLevel L C = Level.error ∧
    (∃ rest, (run L W C).trace =
        Event.log Level.warn none "setting log level to %v" [LogArg.level Level.error] ::
          Event.setLevel Level.error :: Event.listen "tcp" C.address :: rest ∧
      ∀ s, (run L W { C with logLevel := s }).trace =
          Event.log Level.warn none "setting log level to %v"
              [LogArg.level (chosenLevel L { C with logLevel := s })] ::
            Event.setLevel (chosenLevel L { C with logLevel := s }) ::
            Event.listen "tcp" C.address :: rest ∧
        (run L W { C with logLevel := s }).exitCode = (run L W C).exitCode) ∧
    Event.log Level.warn none "setting log level to %v" [LogArg.level Level.error] ∈
      emitted standardLoggerLevel (run L W C).trace := by
  have hlev : chosenLevel L C = Level.error := by simp [chosenLevel, h]
  obtain ⟨rest, code, hrun⟩ := run_logLevel_frame L W C
  have hC : run L W C = ⟨startup L C ++ rest, code⟩ := hrun C.logLevel
  refine ⟨hlev, ⟨rest, ?_, ?_⟩, ?_⟩
  · rw [hC]; simp [startup, hlev]
  · intro s
    rw [hrun s, hC]
    simp [startup]
  · rw [hC]
    simp [startup, hlev, emitted, standardLoggerLevel, Level.rank]

/-- C5 for the log-level text "loud". -/
theorem C5_unknown_log_level_witness :
    refLib.parseLevel loudConfig.logLevel = none ∧
    chosenLevel refLib loudConfig = Level.error ∧
    Event.log Level.warn none "setting log level to %v" [LogArg.level Level.error] ∈
      emitted standardLoggerLevel (run refLib calmWorld loudConfig).trace :=
  ⟨by decide, (C5_unknown_log_level refLib calmWorld loudConfig (by decide)).1,
    (C5_unknown_log_level refLib calmWorld loudConfig (by decide)).2.2⟩

/-- C8: for the limit main builds from a configuration with limit-enabled, the
request that brings a key's count to k is allowed if and only if k is at most the
configured limit N; and in a window opened by a request that finds no live counter,
with every later request before the counter's expiry, request number i + 1 sees the
count i + 1, so the first N requests are allowed, the request making the count N
included, and request N + 1 is denied. -/
theorem C8_decision_rule (C : Config) (hen : C.limitEnabled = true)
    (sep client scope : String) (store : Store) (now : Int) (rest : List Int)
    (hfresh : liveAt store (rateLimitKey sep scope client) now = false)
    (hwin : ∀ t ∈ rest, t < now + C.limitDuration) :
    (∀ (s : Store) (t : Int),
      ((Decide sep (mkLimit C) s t client scope).1.Allowed = true ↔
        (Decide sep (mkLimit C) s t client scope).1.Count ≤ C.reqLimit)) ∧
    decideAll sep (mkLimit C) client scope store (now :: rest) =
      (List.range (rest.length + 1)).map
        (fun i => ⟨decide (i + 1 ≤ C.reqLimit), i + 1, mkLimit C⟩) ∧
    (∀ i, i < rest.length + 1 → i < C.reqLimit →
      (decideAll sep (mkLimit C) client scope store (now :: rest))[i]? =
        some ⟨true, i + 1, mkLimit C⟩) ∧
    (C.reqLimit < rest.length + 1 →
      (decideAll sep (mkLimit C) client scope store (now :: rest))[C.reqLimit]? =
        some ⟨false, C.reqLimit + 1, mkLimit C⟩) := by
  have hen2 : (mkLimit C).Enabled = true := hen
  have hall := decideAll_window sep (mkLimit C) client scope hen2 store now rest hfresh hwin
  refine ⟨?_, hall, ?_, ?_⟩
  · intro s t
    simp [Decide, hen2]
    simp [mkLimit]
  · intro i hi hN
    rw [hall]
    simp [List.getElem?_map, List.getElem?_range hi]
    show i + 1 ≤ C.reqLimit
    omega
  · intro hN
    rw [hall]
    simp [List.getElem?_map, List.getElem?_range hN]
    show C.reqLimit < C.reqLimit + 1
    omega

/-- C8 for a limit of two requests per second and three requests at 0 s, 0.1 s and
0.2 s against an empty store: allowed, allowed, denied. -/
theorem C8_decision_rule_witness :
    decideAll ":" (mkLimit limit2Config) "10.0.0.1" "default" emptyStore
        [0, 100000000, 200000000] =
      [⟨true, 1, mkLimit limit2Config⟩, ⟨true, 2, mkLimit limit2Config⟩,
        ⟨false, 3, mkLimit limit2Config⟩] :=
  (C8_decision_rule limit2Config rfl ":" "10.0.0.1" "default" emptyStore 0
    [100000000, 200000000] rfl (by decide)).2.1

end Guardian
